import Mathlib

/- Verification of the go-dot library (src/graph.go): an in-memory builder and
   single-pass serializer for graphviz dot files.

   Embedding conventions:
   - `Writer` models a Go `io.Writer` as seen through `io.WriteString`: the
     `pending` list prescribes the outcome of each upcoming write call
     (`none` = success, `some e` = the Go error value `e`); once the list is
     exhausted every further write succeeds. `buf` accumulates the bytes the
     stream accepted. A failing write appends nothing.
   - Go `error` values are modelled by `Option Err` (`none` = Go `nil`).
   - `VertexDescription` values reached through a Go pointer
     (`*VertexDescription`) are modelled by an identifier `VId` into a store
     `Store : VId → VertexDescription`; dereferencing the pointer at time `t`
     is applying the store current at time `t`. `Graph.AddVertex` stores the
     pointer (the `VId`), `Graph.AddEdge` dereferences both pointers at call
     time and stores the values, exactly as the Go code does.
   - The reflection loop of `VertexDescription.Write` is embedded as a fold
     over the explicit, ordered list of the struct's fields after `ID`, with
     their declared Go names; `strings.ToLower` is `lowerName`.
   - Brace characters in output strings are written with `\x7b` / `\x7d`
     escapes; they denote the literal `LBRACE` / `RBRACE` bytes. -/

namespace GoDot

/-- Go `error` values (an opaque error is identified by a number);
`Option Err` with `none` plays the role of a possibly-`nil` `error`. -/
abbrev Err := Nat

/-- Model of an `io.Writer` under `io.WriteString`: `pending` prescribes the
outcome of each upcoming write call (`none` = success, `some e` = error `e`);
an exhausted list means every further write succeeds. `buf` holds the bytes
the stream has accepted so far. -/
structure Writer where
  pending : List (Option Err)
  buf : String

/-- Go `io.WriteString w s`: on success the stream accepts `s`, on error it
accepts nothing and the error is returned. -/
def ioWriteString (w : Writer) (s : String) : Writer × Option Err :=
  match w.pending with
  | [] => (Writer.mk [] (w.buf ++ s), none)
  | none :: rest => (Writer.mk rest (w.buf ++ s), none)
  | some e :: rest => (Writer.mk rest w.buf, some e)

/-- Go struct `VertexDescription` (src/graph.go lines 32-47): an identifier,
eight optional string attributes in declaration order, and one optional int
attribute. -/
structure VertexDescription where
  ID : String
  Label : String
  Group : String
  Color : String
  Style : String
  ColorScheme : String
  FontColor : String
  FontName : String
  Shape : String
  Peripheries : Int

/-- Go `NewVertexDescription` (line 50): a vertex with the given ID and every
other field at its zero value. -/
def NewVertexDescription (id : String) : VertexDescription :=
  VertexDescription.mk id "" "" "" "" "" "" "" "" 0

/-- Identifier standing for a Go `*VertexDescription` pointer. -/
abbrev VId := Nat

/-- The current contents of every `VertexDescription` reachable by pointer. -/
abbrev Store := VId → VertexDescription

/-- Go struct `EdgeDescription` (lines 90-96): two vertex values copied in by
`AddEdge`, a directedness flag and an optional style. -/
structure EdgeDescription where
  From : VertexDescription
  To : VertexDescription
  Directed : Bool
  Style : String

/-- Go struct `Literal` (lines 20-22). -/
structure Literal where
  Line : String

mutual
/-- Go interface `Element` (lines 14-16), closed over the four implementors
that occur in a graph body. A vertex element is the stored pointer. -/
inductive Element where
  | literal : Literal → Element
  | vertex : VId → Element
  | edge : EdgeDescription → Element
  | subgraph : Graph → Element

/-- Go struct `Graph` (lines 115-122): `Name`, `Body`, `IsSubGraph`, `Rank`,
in that order. -/
inductive Graph where
  | mk : String → List Element → Bool → String → Graph
end

/-- Field `Name` of `Graph`. -/
def Graph.Name : Graph → String
  | Graph.mk n _ _ _ => n

/-- Field `Body` of `Graph`. -/
def Graph.Body : Graph → List Element
  | Graph.mk _ b _ _ => b

/-- Field `IsSubGraph` of `Graph`. -/
def Graph.IsSubGraph : Graph → Bool
  | Graph.mk _ _ s _ => s

/-- Field `Rank` of `Graph`. -/
def Graph.Rank : Graph → String
  | Graph.mk _ _ _ r => r

/-- Go `NewGraph` (line 125): named, empty body, top-level, no rank. -/
def NewGraph (name : String) : Graph :=
  Graph.mk name [] false ""

/-- Go `strings.ToLower` on the ASCII field names that occur here. -/
def lowerName (s : String) : String :=
  String.mk (s.data.map Char.toLower)

/-- One field of the reflection loop in `VertexDescription.Write`: the
`reflect.Kind` cases `String` and `Int` that the `switch` handles. -/
inductive FieldVal where
  | str : String → FieldVal
  | int : Int → FieldVal

/-- The fields `reflect.ValueOf(*v)` iterates over (indices 1 through
`NumField()-1`), with their declared Go names, in declaration order
(lines 61-63). -/
def vertexFields (v : VertexDescription) : List (String × FieldVal) :=
  [("Label", FieldVal.str v.Label), ("Group", FieldVal.str v.Group),
   ("Color", FieldVal.str v.Color), ("Style", FieldVal.str v.Style),
   ("ColorScheme", FieldVal.str v.ColorScheme), ("FontColor", FieldVal.str v.FontColor),
   ("FontName", FieldVal.str v.FontName), ("Shape", FieldVal.str v.Shape),
   ("Peripheries", FieldVal.int v.Peripheries)]

/-- Body of the reflection loop (lines 63-81): lowercase the declared name;
a non-empty string value starting with the byte `<` is appended unquoted,
any other non-empty string value quoted, a non-zero int value quoted in
decimal; each rendered attribute carries one trailing space. -/
def renderField (name : String) (fv : FieldVal) : String :=
  match fv with
  | FieldVal.str value =>
    if value ≠ "" then
      if value.front = '<' then lowerName name ++ "=" ++ value ++ " "
      else lowerName name ++ "=\"" ++ value ++ "\" "
    else ""
  | FieldVal.int value =>
    if value ≠ 0 then lowerName name ++ "=\"" ++ toString value ++ "\" " else ""

/-- The `nodeStr` accumulated by `VertexDescription.Write` (lines 58-83)
before its single stream write: `ID`, space, `LBRACE`-less opening bracket,
the loop's appends, closing bracket. -/
def VertexDescription.render (v : VertexDescription) : String :=
  ((vertexFields v).foldl (fun acc p => acc ++ renderField p.1 p.2)
    (v.ID ++ " " ++ "[")) ++ "]"

/-- Go `VertexDescription.Write` (lines 57-86): build `nodeStr`, then one
`io.WriteString`, returning its error. -/
def VertexDescription.Write (v : VertexDescription) (w : Writer) : Writer × Option Err :=
  ioWriteString w (VertexDescription.render v)

/-- The `edgeStr` built by `EdgeDescription.Write` (lines 100-109): the two
endpoint IDs around `->` or `--`, then an optional style clause. -/
def EdgeDescription.render (e : EdgeDescription) : String :=
  let arrow := if e.Directed then "->" else "--"
  let edgeStr := e.From.ID ++ " " ++ arrow ++ " " ++ e.To.ID
  if e.Style ≠ "" then edgeStr ++ (" [ style=\"" ++ e.Style ++ "\" ]") else edgeStr

/-- Go `EdgeDescription.Write` (lines 99-112): build `edgeStr`, then one
`io.WriteString`, returning its error. -/
def EdgeDescription.Write (e : EdgeDescription) (w : Writer) : Writer × Option Err :=
  ioWriteString w (EdgeDescription.render e)

/-- Go `Literal.Write` (lines 25-28): write the stored line verbatim. -/
def Literal.Write (lit : Literal) (w : Writer) : Writer × Option Err :=
  ioWriteString w lit.Line

/-- Go `Graph.AddComment` (lines 133-139): append a fresh literal
`/* text */`. -/
def Graph.AddComment : Graph → String → Graph
  | Graph.mk n b s r, text =>
    Graph.mk n (b ++ [Element.literal (Literal.mk ("/* " ++ text ++ " */"))]) s r

/-- Go `Graph.AddNewLine` (lines 142-147): append a fresh empty literal. -/
def Graph.AddNewLine : Graph → Graph
  | Graph.mk n b s r => Graph.mk n (b ++ [Element.literal (Literal.mk "")]) s r

/-- Go `Graph.AddVertex` (lines 151-153): append the given
`*VertexDescription` pointer itself to the body. -/
def Graph.AddVertex : Graph → VId → Graph
  | Graph.mk n b s r, i => Graph.mk n (b ++ [Element.vertex i]) s r

/-- Go `Graph.AddEdge` (lines 157-165): dereference both vertex pointers now
(`From: *v1, To: *v2`) and append a fresh edge holding those copies. -/
def Graph.AddEdge (g : Graph) (σ : Store) (v1 v2 : VId) (directed : Bool) (style : String) :
    Graph :=
  match g with
  | Graph.mk n b s r =>
    Graph.mk n (b ++ [Element.edge (EdgeDescription.mk (σ v1) (σ v2) directed style)]) s r

/-- Go `Graph.AddSubGraph` (lines 168-170): append the nested graph. -/
def Graph.AddSubGraph : Graph → Graph → Graph
  | Graph.mk n b s r, sg => Graph.mk n (b ++ [Element.subgraph sg]) s r

mutual
/-- Dynamic dispatch of the `Element` interface: each body element's `Write`
(the store resolves vertex pointers at write time). -/
def Element.Write (σ : Store) : Element → Writer → Writer × Option Err
  | Element.literal lit, w => Literal.Write lit w
  | Element.vertex i, w => VertexDescription.Write (σ i) w
  | Element.edge e, w => EdgeDescription.Write e w
  | Element.subgraph g, w => Graph.Write σ g w

/-- The body loop of `Graph.Write` (lines 193-200): write the element, then
unconditionally write a line break; if either write errored, return — with
the element write's error `err`, whatever the line-break write returned.
The result's second component is `some ret` when the Go loop executed
`return ret`, `none` when the loop ran to completion. -/
def Graph.writeBody (σ : Store) : List Element → Writer → Writer × Option (Option Err)
  | [], w => (w, none)
  | line :: rest, w =>
    let p := Element.Write σ line w
    let q := ioWriteString p.1 "\n"
    if p.2.isSome || q.2.isSome then (q.1, some p.2)
    else Graph.writeBody σ rest q.1

/-- Go `Graph.Write` (lines 174-204): header line (`subgraph`/`digraph` by
the flag), optional `rank` line, the body loop, closing brace. -/
def Graph.Write (σ : Store) : Graph → Writer → Writer × Option Err
  | Graph.mk name body isSub rank, w =>
    let title := if isSub then "subgraph " ++ name ++ " \x7b\n"
                 else "digraph " ++ name ++ " \x7b\n"
    let p := ioWriteString w title
    if p.2.isSome then p
    else
      let q := if rank ≠ "" then ioWriteString p.1 ("rank=\"" ++ rank ++ "\"\n")
               else (p.1, none)
      if q.2.isSome then q
      else
        match Graph.writeBody σ body q.1 with
        | (w2, some ret) => (w2, ret)
        | (w2, none) => ioWriteString w2 "\x7d"
end

/-- Spec-side rendering of one string attribute, written from the spec's
words: an empty value is omitted entirely; a value whose first character is
`<` is rendered unquoted as `name=value`; any other value is rendered quoted
as `name="value"`; each attribute carries a single trailing separator
space. The `name` passed in is the lowercased declared field name. -/
def specStrAttr (name value : String) : String :=
  if value = "" then ""
  else if value.front = '<' then name ++ "=" ++ value ++ " "
  else name ++ "=\"" ++ value ++ "\" "

/-- Spec-side rendering of an edge, written from the spec's words:
`From.ID`, the connector `->` when directed and `--` when not, `To.ID`, and
a ` [ style="<Style>" ]` suffix exactly when the style is non-empty. -/
def specEdgeStr (e : EdgeDescription) : String :=
  e.From.ID ++ (if e.Directed then " -> " else " -- ") ++ e.To.ID
    ++ (if e.Style = "" then "" else " [ style=\"" ++ e.Style ++ "\" ]")

mutual
/-- The bytes an element contributes to a fully successful serialization. -/
def Element.renderOut (σ : Store) : Element → String
  | Element.literal lit => lit.Line
  | Element.vertex i => VertexDescription.render (σ i)
  | Element.edge e => EdgeDescription.render e
  | Element.subgraph g => Graph.renderOut σ g

/-- The bytes a body contributes to a fully successful serialization: each
element followed by a line break. -/
def bodyOut (σ : Store) : List Element → String
  | [] => ""
  | line :: rest => Element.renderOut σ line ++ "\n" ++ bodyOut σ rest

/-- The bytes a graph contributes to a fully successful serialization. -/
def Graph.renderOut (σ : Store) : Graph → String
  | Graph.mk name body isSub rank =>
    (if isSub then "subgraph " ++ name ++ " \x7b\n" else "digraph " ++ name ++ " \x7b\n")
      ++ (if rank ≠ "" then "rank=\"" ++ rank ++ "\"\n" else "")
      ++ bodyOut σ body ++ "\x7d"
end

/-- Arbitrary concrete vertex store used in closed instances. -/
def store0 : Store := fun _ => NewVertexDescription "a"

theorem ioWriteString_clean (buf s : String) :
    ioWriteString (Writer.mk [] buf) s = (Writer.mk [] (buf ++ s), none) := rfl

theorem renderField_str_eq (n x : String) :
    renderField n (FieldVal.str x) = specStrAttr (lowerName n) x := by
  simp only [renderField, specStrAttr, ne_eq, ite_not]

theorem renderField_str_empty (n : String) :
    renderField n (FieldVal.str "") = "" := by
  simp [renderField]

theorem renderField_int_zero (n : String) :
    renderField n (FieldVal.int 0) = "" := by
  simp [renderField]

theorem renderField_int_ne (n : String) (x : Int) (hx : ¬ x = 0) :
    renderField n (FieldVal.int x) = lowerName n ++ "=\"" ++ toString x ++ "\" " := by
  simp [renderField, hx]

mutual
theorem elementWrite_clean (σ : Store) (e : Element) (buf : String) :
    Element.Write σ e (Writer.mk [] buf) = (Writer.mk [] (buf ++ Element.renderOut σ e), none) := by
  cases e with
  | literal lit => rfl
  | vertex i => rfl
  | edge ed => rfl
  | subgraph g => exact graphWrite_clean σ g buf

theorem writeBodyLoop_clean (σ : Store) (l : List Element) (buf : String) :
    Graph.writeBody σ l (Writer.mk [] buf) = (Writer.mk [] (buf ++ bodyOut σ l), none) := by
  cases l with
  | nil => simp [Graph.writeBody, bodyOut]
  | cons line rest =>
    have h1 := elementWrite_clean σ line buf
    have h2 := writeBodyLoop_clean σ rest (buf ++ Element.renderOut σ line ++ "\n")
    simp only [Graph.writeBody, h1, ioWriteString_clean, Option.isSome_none, Bool.or_self,
      Bool.false_eq_true, if_false, h2, bodyOut]
    simp [String.append_assoc]

theorem graphWrite_clean (σ : Store) (g : Graph) (buf : String) :
    Graph.Write σ g (Writer.mk [] buf) = (Writer.mk [] (buf ++ Graph.renderOut σ g), none) := by
  cases g with
  | mk name body isSub rank =>
    by_cases hr : rank = ""
    · subst hr
      have hb := writeBodyLoop_clean σ body
        (buf ++ (if isSub then "subgraph " ++ name ++ " \x7b\n" else "digraph " ++ name ++ " \x7b\n"))
      simp only [Graph.Write, ioWriteString_clean, Option.isSome_none, Bool.false_eq_true,
        if_false, ne_eq, not_true_eq_false, ite_false, hb, ioWriteString_clean,
        Graph.renderOut]
      simp [String.append_assoc]
    · have hb := writeBodyLoop_clean σ body
        (buf ++ (if isSub then "subgraph " ++ name ++ " \x7b\n" else "digraph " ++ name ++ " \x7b\n")
          ++ ("rank=\"" ++ rank ++ "\"\n"))
      simp only [Graph.Write, ioWriteString_clean, Option.isSome_none, Bool.false_eq_true,
        if_false, ne_eq, hr, not_false_eq_true, ite_true, ioWriteString_clean, hb,
        Graph.renderOut]
      simp [String.append_assoc]
end

/-- C1 counterexample. On a top-level graph `G` with one literal body element
and a stream that accepts the header and then fails the element write with
error `1` and the line-break write with error `2`, `Graph.Write` returns
error `1` — the element write's error, not the line-break write's error `2`
the claim promises. And when only the line-break write fails (error `5`),
`Graph.Write` returns `nil` rather than surfacing that error. -/
theorem graphWrite_later_error_wins_cex :
    ((Graph.Write store0 (Graph.mk "G" [Element.literal (Literal.mk "x")] false "")
        (Writer.mk [none, some 1, some 2] "")).2 = some 1
      ∧ (some 1 : Option Err) ≠ some 2)
    ∧ (Graph.Write store0 (Graph.mk "G" [Element.literal (Literal.mk "x")] false "")
        (Writer.mk [none, none, some 5] "")).2 = none :=
  ⟨⟨rfl, by decide⟩, rfl⟩

/-- C1 (amended): in `Graph.Write`'s body loop, when a body element's write
and the subsequent line-break write both fail, the error returned by
`Graph.Write` is the element write's error (the earlier error wins); when
only the line-break write fails, `Graph.Write` returns `nil` — the
line-break error is never surfaced (the loop still stops early). Stated for
a top-level graph whose body starts with a literal element, over arbitrary
element/line-break error values and an arbitrary rest of the body. -/
theorem graphWrite_element_error_precedence (lit : String) (e1 e2 : Err)
    (rest : List Element) (σ : Store) :
    (Graph.Write σ (Graph.mk "G" (Element.literal (Literal.mk lit) :: rest) false "")
        (Writer.mk [none, some e1, some e2] "")).2 = some e1
    ∧ (Graph.Write σ (Graph.mk "G" (Element.literal (Literal.mk lit) :: rest) false "")
        (Writer.mk [none, none, some e2] "")).2 = none :=
  ⟨rfl, rfl⟩

/-- C2: a top-level graph `G` with rank `same` whose body is exactly one
subgraph `S` whose body is exactly one vertex with ID `a` and all optional
attributes unset serializes, on a stream that accepts every write, to the
bytes `digraph G LBRACE\nrank="same"\nsubgraph S LBRACE\na []\n RBRACE\n RBRACE`
(braces written as escapes below). -/
theorem graphWrite_nested_subgraph :
    Graph.Write (fun _ => NewVertexDescription "a")
      (Graph.mk "G" [Element.subgraph (Graph.mk "S" [Element.vertex 0] true "")] false "same")
      (Writer.mk [] "")
    = (Writer.mk [] "digraph G \x7b\nrank=\"same\"\nsubgraph S \x7b\na []\n\x7d\n\x7d", none) :=
  rfl

/-- C3: for every vertex whose eight optional string attributes are all empty
and whose `Peripheries` is zero, `VertexDescription.Write` writes exactly
`ID []` (identifier, space, open bracket, close bracket) to a stream that
accepts the write. -/
theorem vertexWrite_all_unset (id : String) :
    VertexDescription.Write (VertexDescription.mk id "" "" "" "" "" "" "" "" 0)
      (Writer.mk [] "")
    = (Writer.mk [] (id ++ " []"), none) := by
  simp only [VertexDescription.Write, VertexDescription.render, vertexFields, List.foldl,
    renderField_str_empty, renderField_int_zero, ioWriteString_clean, String.append_empty,
    String.empty_append, String.append_assoc]
  rfl

/-- C4: for every vertex (peripheries unset, isolating the string
attributes), `VertexDescription.Write` writes the identifier, ` [`, then
each string attribute rendered per the spec rule — omitted when empty,
`name=value` unquoted when the value's first character is `<`, and
`name="value"` quoted otherwise, under the lowercased declared field name —
in declaration order, then `]`. -/
theorem vertexWrite_string_attr_rendering
    (id l g c s cs fc fn sh : String) :
    VertexDescription.Write (VertexDescription.mk id l g c s cs fc fn sh 0)
      (Writer.mk [] "")
    = (Writer.mk [] (id ++ " [" ++ (specStrAttr "label" l ++ specStrAttr "group" g
        ++ specStrAttr "color" c ++ specStrAttr "style" s ++ specStrAttr "colorscheme" cs
        ++ specStrAttr "fontcolor" fc ++ specStrAttr "fontname" fn
        ++ specStrAttr "shape" sh) ++ "]"), none) := by
  simp only [VertexDescription.Write, VertexDescription.render, vertexFields, List.foldl,
    renderField_str_eq, renderField_int_zero, ioWriteString_clean, String.append_empty,
    String.empty_append, String.append_assoc]
  rfl

/-- C5: for every vertex with all string attributes empty, the `Peripheries`
attribute is omitted by `VertexDescription.Write` when zero, and rendered as
`peripheries="N"` (the decimal value in double quotes, negative values
included) whenever non-zero. -/
theorem vertexWrite_peripheries (id : String) (p : Int) :
    VertexDescription.Write (VertexDescription.mk id "" "" "" "" "" "" "" "" p)
      (Writer.mk [] "")
    = (Writer.mk [] (id ++ " [" ++ (if p = 0 then ""
        else "peripheries=\"" ++ toString p ++ "\" ") ++ "]"), none) := by
  by_cases hp : p = 0
  · subst hp
    simp only [VertexDescription.Write, VertexDescription.render, vertexFields, List.foldl,
      renderField_str_empty, renderField_int_zero, ioWriteString_clean, String.append_empty,
      String.empty_append, String.append_assoc, if_pos rfl]
    rfl
  · simp only [VertexDescription.Write, VertexDescription.render, vertexFields, List.foldl,
      renderField_str_empty, renderField_int_ne _ _ hp, ioWriteString_clean,
      String.append_empty, String.empty_append, String.append_assoc, if_neg hp]
    rfl

/-- C6: for every edge, `EdgeDescription.Write` writes `From.ID -> To.ID`
when directed and `From.ID -- To.ID` when not, followed by the suffix
` [ style="Style" ]` exactly when `Style` is non-empty (verbatim, quoted),
to a stream that accepts the write. -/
theorem edgeWrite_connector_and_style (e : EdgeDescription) :
    EdgeDescription.Write e (Writer.mk [] "")
    = (Writer.mk [] (specEdgeStr e), none) := by
  obtain ⟨f, t, d, st⟩ := e
  by_cases hs : st = ""
  · subst hs
    cases d <;>
      simp only [EdgeDescription.Write, EdgeDescription.render, specEdgeStr,
        ioWriteString_clean, ne_eq, not_true_eq_false, ite_false, ite_true,
        Bool.false_eq_true, if_pos rfl, String.append_empty, String.empty_append,
        String.append_assoc] <;> rfl
  · cases d <;>
      simp only [EdgeDescription.Write, EdgeDescription.render, specEdgeStr,
        ioWriteString_clean, ne_eq, hs, not_false_eq_true, ite_true, ite_false,
        Bool.false_eq_true, if_neg hs, String.append_empty, String.empty_append,
        String.append_assoc] <;> rfl

/-- C7: a top-level graph named `G` with empty body and empty rank
serializes, on a stream that accepts every write, to exactly the header line
followed by the closing brace with no trailing newline. -/
theorem graphWrite_empty_graph (σ : Store) :
    Graph.Write σ (Graph.mk "G" [] false "") (Writer.mk [] "")
    = (Writer.mk [] "digraph G \x7b\n\x7d", none) := rfl

/-- C8: serialization does not mutate the model — `Graph.Write` consumes the
graph purely (the embedding passes `Graph` by value, mirroring that the Go
code never assigns through the receiver), so writing the same graph twice in
a row to a stream that accepts every write appends the identical byte
sequence `Graph.renderOut σ g` both times. -/
theorem graphWrite_idempotent (σ : Store) (g : Graph) (buf : String) :
    Graph.Write σ g (Writer.mk [] buf)
      = (Writer.mk [] (buf ++ Graph.renderOut σ g), none)
    ∧ (Graph.Write σ g (Graph.Write σ g (Writer.mk [] buf)).1).1.buf
      = buf ++ Graph.renderOut σ g ++ Graph.renderOut σ g := by
  refine ⟨graphWrite_clean σ g buf, ?_⟩
  rw [graphWrite_clean σ g buf]
  rw [show (Writer.mk [] (buf ++ Graph.renderOut σ g), (none : Option Err)).1
      = Writer.mk [] (buf ++ Graph.renderOut σ g) from rfl]
  rw [graphWrite_clean σ g (buf ++ Graph.renderOut σ g)]

/-- C9: `Graph.AddEdge` dereferences both vertex pointers at call time and
stores the copies in the new edge, so writing that edge later under any
mutated store `σA` uses the snapshots `σ v1`, `σ v2` taken at `AddEdge`
time (the result mentions only `σ`); a vertex element appended by
`Graph.AddVertex` stores the pointer `i` and is rendered from the store
current at write time (`σA i`). -/
theorem addEdge_snapshot_addVertex_live (σ σA : Store) (n : String) (b : List Element)
    (sub : Bool) (r : String) (i j : VId) (d : Bool) (st : String) (w : Writer) :
    Graph.AddEdge (Graph.mk n b sub r) σ i j d st
      = Graph.mk n (b ++ [Element.edge (EdgeDescription.mk (σ i) (σ j) d st)]) sub r
    ∧ Graph.AddVertex (Graph.mk n b sub r) i = Graph.mk n (b ++ [Element.vertex i]) sub r
    ∧ Element.Write σA (Element.edge (EdgeDescription.mk (σ i) (σ j) d st)) w
      = ioWriteString w (EdgeDescription.render (EdgeDescription.mk (σ i) (σ j) d st))
    ∧ Element.Write σA (Element.vertex i) w
      = ioWriteString w (VertexDescription.render (σA i)) :=
  ⟨rfl, rfl, rfl, rfl⟩

/-- C10: in `Graph.Write`'s body loop, when the body element's write fails
the line-break write is still attempted before returning: the loop's result
writer is the writer state after the line-break write, the returned value is
the element's error, and if the stream accepted the line break its buffer
gained exactly one newline after the element's partial output. -/
theorem bodyLoop_newline_attempted (σ : Store) (line : Element) (rest : List Element)
    (w : Writer) (h : (Element.Write σ line w).2.isSome = true) :
    Graph.writeBody σ (line :: rest) w
      = ((ioWriteString (Element.Write σ line w).1 "\n").1,
         some (Element.Write σ line w).2)
    ∧ ((ioWriteString (Element.Write σ line w).1 "\n").2 = none →
        (ioWriteString (Element.Write σ line w).1 "\n").1.buf
          = (Element.Write σ line w).1.buf ++ "\n") := by
  constructor
  · simp only [Graph.writeBody, h, Bool.true_or, if_true]
  · intro hq
    rcases hpending : (Element.Write σ line w).1.pending with _ | ⟨r, rest'⟩
    · simp [ioWriteString, hpending]
    · cases r
      · simp [ioWriteString, hpending]
      · simp [ioWriteString, hpending] at hq

/-- C10 witness: a literal body element on a stream that fails the element
write with error `1` and accepts the line-break write. -/
theorem bodyLoop_newline_attempted_witness :
    ((Element.Write store0 (Element.literal (Literal.mk "x"))
        (Writer.mk [some 1, none] "")).2.isSome = true)
    ∧ Graph.writeBody store0 [Element.literal (Literal.mk "x")]
        (Writer.mk [some 1, none] "")
      = ((ioWriteString (Element.Write store0 (Element.literal (Literal.mk "x"))
            (Writer.mk [some 1, none] "")).1 "\n").1,
         some (Element.Write store0 (Element.literal (Literal.mk "x"))
            (Writer.mk [some 1, none] "")).2) :=
  ⟨rfl, (bodyLoop_newline_attempted store0 (Element.literal (Literal.mk "x")) []
    (Writer.mk [some 1, none] "") rfl).1⟩

end GoDot
